import Mathlib

/-!
Verification development for the CogniTask task manager.

The program stores tasks in a SQLite table (`src/database.py`), offers CRUD
operations, a "next task" selection for Focus Mode, statistics, and two
AI-backed helpers (`src/gemini_utils.py`) that post-process JSON responses of
an external model.  The Streamlit UI (`src/app.py`) reconstructs the task
hierarchy from a list of tasks.

This file shallowly embeds those parts:
* rows of the `tasks` table become the structure `Task`; `DateTime` columns
  become `Int` timestamps (totally ordered instants), nullable columns become
  `Option`;
* the table's content becomes a `List Task`; SQLAlchemy queries become list
  filters / finds, `first()` after `order_by` becomes the stable minimum of
  the emitted sort keys;
* JSON values returned by the external model become the inductive `JVal`
  (null, strings, arrays) and JSON objects association lists `JObj`;
  `call_gemini` returns the parsed object or `none` on any failure (API error
  or malformed JSON), so the helpers take an `Option JObj` argument.
-/

namespace CogniTask

/-- Source constant `VALID_STATUSES` of `database.py`. -/
def VALID_STATUSES : List String := ["todo", "inprogress", "done", "blocked"]

/-- Source constant `VALID_PRIORITIES` of `database.py`. -/
def VALID_PRIORITIES : List String := ["low", "medium", "high", "urgent"]

/-- Source constant `PRIORITY_ORDER` of `database.py` (dict as assoc list). -/
def PRIORITY_ORDER : List (String × Nat) :=
  [("urgent", 4), ("high", 3), ("medium", 2), ("low", 1)]

/-- A row of the `tasks` table (`class Task` of `database.py`).  The surrogate
integer primary key `id` plays no role in any operation and is omitted; all
lookups go through the unique `task_id` string.  `DateTime` columns are `Int`
timestamps, nullable columns are `Option`. -/
structure Task where
  task_id : String
  title : String
  description : Option String
  status : String
  priority : String
  due_date : Option Int
  parent_task_id : Option String
  created_at : Int
  updated_at : Int
deriving DecidableEq, Repr

/-- `get_task_by_id`: first row whose `task_id` matches. -/
def get_task_by_id (store : List Task) (task_id : String) : Option Task :=
  store.find? (fun t => t.task_id == task_id)

/-- `has_subtasks`: `count() > 0` over rows whose `parent_task_id` equals the
given id. -/
def has_subtasks (store : List Task) (task_id : String) : Bool :=
  decide (0 < store.countP (fun t => t.parent_task_id == some task_id))

/-- The row built by `create_task`: invalid `status` falls back to `"todo"`,
invalid `priority` to `"medium"`; `created_at` and `updated_at` default to the
current instant `now`; `task_id` is the freshly generated uuid string. -/
def mk_create_task (now : Int) (new_id : String) (title : String)
    (description : Option String) (status : String) (priority : String)
    (due_date : Option Int) (parent_task_id : Option String) : Task :=
  { task_id := new_id
    title := title
    description := description
    status := if status ∈ VALID_STATUSES then status else "todo"
    priority := if priority ∈ VALID_PRIORITIES then priority else "medium"
    due_date := due_date
    parent_task_id := parent_task_id
    created_at := now
    updated_at := now }

/-- `create_task`: builds the row and adds it to the table. -/
def create_task (store : List Task) (now : Int) (new_id : String)
    (title : String) (description : Option String) (status : String)
    (priority : String) (due_date : Option Int)
    (parent_task_id : Option String) : Task × List Task :=
  let t := mk_create_task now new_id title description status priority
    due_date parent_task_id
  (t, store ++ [t])

/-- The keyword arguments of `update_task` other than the session and id:
each `Option` field is a supplied value or `None`, plus the two clear flags. -/
structure UpdateArgs where
  title : Option String
  description : Option String
  status : Option String
  priority : Option String
  due_date : Option Int
  parent_task_id : Option String
  clear_due_date : Bool
  clear_parent : Bool
deriving DecidableEq, Repr

/-- The call `update_task(id, {})`: nothing supplied, no clear flags. -/
def emptyUpdate : UpdateArgs :=
  { title := none, description := none, status := none, priority := none
    due_date := none, parent_task_id := none
    clear_due_date := false, clear_parent := false }

/-- The field assignments of `update_task` applied to one row, in source
order; an invalid supplied `status`/`priority` is ignored; `updated_at` is set
to the current instant `now` at the end. -/
def apply_update (t : Task) (a : UpdateArgs) (now : Int) : Task :=
  let t := match a.title with
    | some v => { t with title := v }
    | none => t
  let t := match a.description with
    | some v => { t with description := some v }
    | none => t
  let t := match a.status with
    | some v => if v ∈ VALID_STATUSES then { t with status := v } else t
    | none => t
  let t := match a.priority with
    | some v => if v ∈ VALID_PRIORITIES then { t with priority := v } else t
    | none => t
  let t := match a.due_date with
    | some v => { t with due_date := some v }
    | none => t
  let t := if a.clear_due_date then { t with due_date := none } else t
  let t := match a.parent_task_id with
    | some v => { t with parent_task_id := some v }
    | none => t
  let t := if a.clear_parent then { t with parent_task_id := none } else t
  { t with updated_at := now }

/-- `update_task`: `None` if the id is unknown, otherwise the updated row and
the table with that row replaced. -/
def update_task (store : List Task) (task_id : String) (a : UpdateArgs)
    (now : Int) : Option Task × List Task :=
  match get_task_by_id store task_id with
  | none => (none, store)
  | some t =>
    let t2 := apply_update t a now
    (some t2, store.map (fun u => if u.task_id == task_id then t2 else u))

/-- `delete_task`: `False` if the id is unknown or the task has subtasks,
otherwise `True` and the found record is deleted. -/
def delete_task (store : List Task) (task_id : String) : Bool × List Task :=
  match get_task_by_id store task_id with
  | none => (false, store)
  | some _ =>
    if has_subtasks store task_id then (false, store)
    else (true, store.eraseP (fun t => t.task_id == task_id))

/-- The `case` expression of `get_next_priority_task` mapping a priority
string to its rank, with `else_=0`. -/
def priority_case (p : String) : Nat :=
  if p = "urgent" then 4
  else if p = "high" then 3
  else if p = "medium" then 2
  else if p = "low" then 1
  else 0

/-- `Task.due_date.asc().nullslast()` as a strict comparison on the emitted
key: a non-null date precedes a larger date and precedes null; null precedes
nothing. -/
def due_asc_nullslast : Option Int → Option Int → Bool
  | some x, some y => decide (x < y)
  | some _, none => true
  | none, _ => false

/-- The strict "comes before" relation of the `order_by` clause of
`get_next_priority_task`: priority rank descending, then due date ascending
with nulls last, then `created_at` ascending. -/
def task_order_before (a b : Task) : Bool :=
  if priority_case a.priority ≠ priority_case b.priority then
    decide (priority_case b.priority < priority_case a.priority)
  else if a.due_date ≠ b.due_date then due_asc_nullslast a.due_date b.due_date
  else decide (a.created_at < b.created_at)

/-- The status filter of `get_next_priority_task`:
`Task.status.in_(["todo", "inprogress"])`. -/
def is_incomplete (t : Task) : Bool :=
  t.status == "todo" || t.status == "inprogress"

/-- One comparison step of taking the first row of the ordered result: keep
the current best `b` unless `u` sorts strictly before it (stability: on a
tie the earlier row is kept). -/
def select_step (b u : Task) : Task :=
  if task_order_before u b then u else b

/-- `.first()` on the ordered query: the stable minimum of the candidate rows
under `task_order_before`. -/
def select_first : List Task → Option Task
  | [] => none
  | t :: ts => some (ts.foldl select_step t)

/-- `get_next_priority_task`: filter to incomplete tasks, order, take the
first row. -/
def get_next_priority_task (store : List Task) : Option Task :=
  select_first (store.filter is_incomplete)

/-- The dictionary returned by `get_task_stats`. -/
structure TaskStats where
  total : Nat
  todo : Nat
  inprogress : Nat
  done : Nat
  blocked : Nat
  overdue : Nat
deriving DecidableEq, Repr

/-- `get_task_stats`: one count per status plus the overdue count; the SQL
comparison `Task.due_date < now` is null-rejecting, so rows without a due
date are never overdue. -/
def get_task_stats (store : List Task) (now : Int) : TaskStats :=
  { total := store.length
    todo := (store.filter (fun t => t.status == "todo")).length
    inprogress := (store.filter (fun t => t.status == "inprogress")).length
    done := (store.filter (fun t => t.status == "done")).length
    blocked := (store.filter (fun t => t.status == "blocked")).length
    overdue := (store.filter (fun t =>
      (match t.due_date with
        | some d => decide (d < now)
        | none => false)
      && (t.status == "todo" || t.status == "inprogress"))).length }

/-! ### JSON values and the Gemini helpers (`gemini_utils.py`)

`call_gemini` returns `json.loads` of the model answer, or `None` on a
configuration problem, an API error or malformed JSON (both exception
branches return `None`).  The helpers are therefore embedded as functions of
the call result, an `Option JObj`. -/

/-- A JSON value as far as the helpers inspect one: null, a string, or an
array. -/
inductive JVal where
  | jnull : JVal
  | jstr : String → JVal
  | jlist : List JVal → JVal
deriving Repr

/-- A parsed JSON object: an association list of keys and values (Python
dict keys are unique; lookups take the first binding). -/
def JObj := List (String × JVal)

/-- Python truthiness of a value: `None`, the empty string and the empty
list are falsy. -/
def pyTruthy : JVal → Bool
  | .jnull => false
  | .jstr s => !(s == "")
  | .jlist xs => !xs.isEmpty

/-- Python single quote, as used by `repr` of a string. -/
def pyQuote : String := String.singleton (Char.ofNat 39)

/-- Python `str.strip()` (no argument): remove leading and trailing
whitespace, character-wise. -/
def py_strip (s : String) : String :=
  ⟨(((s.data.dropWhile Char.isWhitespace).reverse.dropWhile
      Char.isWhitespace).reverse)⟩

/-- Python slicing `s[:n]` on a string: its first `n` characters. -/
def py_slice (s : String) (n : Nat) : String := ⟨s.data.take n⟩

/-- Python `repr()` of a value, as printed for elements inside a list. -/
def pyReprElem : JVal → String
  | .jnull => "None"
  | .jstr s => pyQuote ++ s ++ pyQuote
  | .jlist xs => "[" ++ String.intercalate (", ")
      (xs.attach.map (fun x => pyReprElem x.1)) ++ "]"
termination_by v => sizeOf v
decreasing_by
  simp_wf
  have h := List.sizeOf_lt_of_mem x.2
  omega

/-- Python `str()` of a value: `None` prints as `"None"`, a string is
itself, a list prints as the bracketed comma-separated `repr` of its
elements. -/
def pyStr : JVal → String
  | .jnull => "None"
  | .jstr s => s
  | .jlist xs => "[" ++ String.intercalate (", ")
      (xs.attach.map (fun x => pyReprElem x.1)) ++ "]"

/-- Python `key in dict`. -/
def objHasKey (r : JObj) (k : String) : Bool :=
  (List.any r (fun kv => kv.1 == k))

/-- Python `dict.get(key)`: the first bound value, or `None` when the key is
absent. -/
def objGet (r : JObj) (k : String) : JVal :=
  match List.find? (fun kv => kv.1 == k) r with
  | some kv => kv.2
  | none => .jnull

/-- Python `dict.get(key, default)`. -/
def objGetD (r : JObj) (k : String) (d : JVal) : JVal :=
  match List.find? (fun kv => kv.1 == k) r with
  | some kv => kv.2
  | none => d

/-- The task draft dictionary returned by `parse_task_input` on success:
`title` and `priority` are always strings there; `description` and
`due_date` are the response values passed through. -/
structure TaskDraft where
  title : String
  description : JVal
  priority : String
  due_date : JVal
deriving Repr

/-- `parse_task_input`, as a function of the `call_gemini` result: `None`
unless the result is a truthy dict containing `"title"`; otherwise the
normalized draft.  The source's priority expression
`result.get("priority", "medium") if result.get("priority") in [...] else "medium"`
equals the supplied priority when it is one of the four valid strings and
`"medium"` otherwise. -/
def parse_task_input (result : Option JObj) : Option TaskDraft :=
  match result with
  | none => none
  | some r =>
    if !(List.isEmpty r) && objHasKey r "title" then
      some { title := py_slice (pyStr (objGetD r "title" (.jstr ""))) 255
             description := objGet r "description"
             priority :=
               match objGet r "priority" with
               | .jstr p => if p ∈ VALID_PRIORITIES then p else "medium"
               | _ => "medium"
             due_date := objGet r "due_date" }
    else none

/-- `breakdown_task`, as a function of the `call_gemini` result: requires a
truthy dict containing `"sub_tasks"` whose value is a list of length ≥ 1,
then returns the comprehension
`[str(task)[:255] for task in sub_tasks if task and str(task).strip()]`. -/
def breakdown_task (result : Option JObj) : Option (List String) :=
  match result with
  | none => none
  | some r =>
    if !(List.isEmpty r) && objHasKey r "sub_tasks" then
      match objGet r "sub_tasks" with
      | .jlist xs =>
        if 1 ≤ xs.length then
          some ((xs.filter
            (fun v => pyTruthy v && !(py_strip (pyStr v) == ""))).map
            (fun v => py_slice (pyStr v) 255))
        else none
      | _ => none
    else none

/-! ### Hierarchy reconstruction (`render_task_hierarchy` in `app.py`) -/

/-- Python falsiness of an optional string column value: `None` and the
empty string. -/
def pyFalsyOptStr : Option String → Bool
  | none => true
  | some s => s == ""

/-- The root designation of `render_task_hierarchy`:
`not t.parent_task_id or t.parent_task_id not in tasks_by_id`, where
`tasks_by_id` indexes the given tasks by `task_id` (a `None` parent is never
a dict key, so both reads make it a root). -/
def is_root_in_view (all_tasks : List Task) (t : Task) : Bool :=
  pyFalsyOptStr t.parent_task_id ||
    (match t.parent_task_id with
      | none => true
      | some p => !(all_tasks.any (fun u => u.task_id == p)))

/-- The `root_tasks` list computed by `render_task_hierarchy`. -/
def hierarchy_root_tasks (all_tasks : List Task) : List Task :=
  all_tasks.filter (is_root_in_view all_tasks)

/-! ### Specification-side definitions

These restate the spec's wording independently of the embedded code, to be
compared with it: the candidate predicate and the lexicographic sort key of
`next_task`, written from the spec's priority mapping (urgent=4 > high=3 >
medium=2 > low=1, via the source dict `PRIORITY_ORDER`), due date ascending
with "no due date" after all dates, and creation instant ascending. -/

/-- Spec: a candidate for `next_task` is a task whose status is `todo` or
`inprogress`. -/
def is_candidate (t : Task) : Prop :=
  t.status = "todo" ∨ t.status = "inprogress"

instance (t : Task) : Decidable (is_candidate t) := by
  unfold is_candidate; infer_instance

/-- Spec: the numeric priority rank of the mapping
urgent=4 > high=3 > medium=2 > low=1. -/
def spec_priority_rank (p : String) : Nat :=
  (List.lookup p PRIORITY_ORDER).getD 0

/-- Spec: due date ascending, a task with no due date after every task that
has one. -/
def due_spec_lt : Option Int → Option Int → Prop
  | some x, some y => x < y
  | some _, none => True
  | none, _ => False

instance : (a b : Option Int) → Decidable (due_spec_lt a b)
  | some x, some y => inferInstanceAs (Decidable (x < y))
  | some _, none => .isTrue trivial
  | none, some _ => .isFalse (fun h => h)
  | none, none => .isFalse (fun h => h)

/-- Spec: the strict lexicographic order of `next_task`: priority
descending, then due date ascending with absent dates last, then
`created_at` ascending. -/
def spec_key_lt (a b : Task) : Prop :=
  spec_priority_rank b.priority < spec_priority_rank a.priority ∨
    (spec_priority_rank a.priority = spec_priority_rank b.priority ∧
      (due_spec_lt a.due_date b.due_date ∨
        (a.due_date = b.due_date ∧ a.created_at < b.created_at)))

instance (a b : Task) : Decidable (spec_key_lt a b) := by
  unfold spec_key_lt; infer_instance

/-! ### Concrete fixtures used by witnesses and counterexamples -/

/-- A todo task with a due date. -/
def wTaskA : Task :=
  { task_id := "a", title := "A", description := none, status := "todo"
    priority := "high", due_date := some 5, parent_task_id := none
    created_at := 0, updated_at := 0 }

/-- An in-progress task without a due date. -/
def wTaskB : Task :=
  { task_id := "b", title := "B", description := none
    status := "inprogress", priority := "high", due_date := none
    parent_task_id := none, created_at := 1, updated_at := 0 }

/-- A parent task. -/
def wParent : Task :=
  { task_id := "p", title := "P", description := none, status := "todo"
    priority := "medium", due_date := none, parent_task_id := none
    created_at := 0, updated_at := 0 }

/-- A child task of `wParent`. -/
def wChild : Task :=
  { task_id := "c", title := "C", description := none, status := "todo"
    priority := "medium", due_date := none, parent_task_id := some "p"
    created_at := 1, updated_at := 0 }

/-- An update supplying an invalid status and an invalid priority. -/
def wBadArgs : UpdateArgs :=
  { emptyUpdate with status := some "bogus", priority := some "nope" }

/-- A task whose parent reference is dangling. -/
def wDangling : Task :=
  { task_id := "d", title := "D", description := none, status := "done"
    priority := "low", due_date := none, parent_task_id := some "zz"
    created_at := 2, updated_at := 0 }

/-! ## Helper lemmas -/

/-- A dict containing a key is not empty. -/
theorem objHasKey_not_isEmpty {r : JObj} {k : String}
    (h : objHasKey r k = true) : List.isEmpty r = false := by
  cases r with
  | nil => simp [objHasKey] at h
  | cons kv tl => rfl

/-- When the key is present, `dict.get(k, d)` ignores the default. -/
theorem objGetD_eq_objGet {r : JObj} {k : String} (d : JVal)
    (h : objHasKey r k = true) : objGetD r k d = objGet r k := by
  unfold objGetD objGet
  unfold objHasKey at h
  rw [List.any_eq_true] at h
  obtain ⟨kv, hmem, hk⟩ := h
  have : (List.find? (fun kv => kv.1 == k) r).isSome := by
    rw [List.find?_isSome]
    exact ⟨kv, hmem, hk⟩
  obtain ⟨v, hv⟩ := Option.isSome_iff_exists.mp this
  rw [hv]

/-! ## C2: `breakdown` post-processing of the model response -/

/-- C2, counterexample: on the response
`{"sub_tasks": ["", " Buy milk ", "Call vet"]}` the code yields
`[" Buy milk ", "Call vet"]` — blank entries are dropped and entries are
truncated, but the surviving entries are NOT trimmed — so it does not yield
`["Buy milk", "Call vet"]` as the claim states. -/
theorem breakdown_task_keeps_whitespace :
    breakdown_task (some [("sub_tasks",
        JVal.jlist [JVal.jstr "", JVal.jstr " Buy milk ", JVal.jstr "Call vet"])]) =
      some [" Buy milk ", "Call vet"] ∧
    breakdown_task (some [("sub_tasks",
        JVal.jlist [JVal.jstr "", JVal.jstr " Buy milk ", JVal.jstr "Call vet"])]) ≠
      some ["Buy milk", "Call vet"] := by
  constructor
  · rfl
  · decide

/-- C2, amended: for every response whose `sub_tasks` value is a list of
strings with at least one entry, `breakdown` returns the entries with
empty/whitespace-only entries dropped and every kept entry truncated to 255
characters, without trimming. -/
theorem breakdown_task_spec (r : JObj) (xs : List String)
    (hkey : objHasKey r "sub_tasks" = true)
    (hget : objGet r "sub_tasks" = JVal.jlist (xs.map JVal.jstr))
    (hne : xs ≠ []) :
    breakdown_task (some r) =
      some ((xs.filter (fun s => !(py_strip s == ""))).map
        (fun s => py_slice s 255)) := by
  have hcond : (!(List.isEmpty r) && objHasKey r "sub_tasks") = true := by
    rw [objHasKey_not_isEmpty hkey, hkey]
    rfl
  have hlen : 1 ≤ (xs.map JVal.jstr).length := by
    rw [List.length_map]
    exact Nat.one_le_iff_ne_zero.mpr (fun h => hne (List.eq_nil_of_length_eq_zero h))
  simp only [breakdown_task]
  rw [if_pos hcond, hget]
  show (if 1 ≤ (List.map JVal.jstr xs).length then
      some (List.map (fun v => py_slice (pyStr v) 255)
        (List.filter (fun v => pyTruthy v && !(py_strip (pyStr v) == ""))
          (List.map JVal.jstr xs)))
    else none) =
    some ((xs.filter (fun s => !(py_strip s == ""))).map (fun s => py_slice s 255))
  rw [if_pos hlen]
  congr 1
  rw [List.filter_map, List.map_map]
  have hfil : ∀ s ∈ xs,
      ((fun v => pyTruthy v && !(py_strip (pyStr v) == "")) ∘ JVal.jstr) s =
        (fun s => !(py_strip s == "")) s := by
    intro s _
    show (pyTruthy (JVal.jstr s) && !(py_strip (pyStr (JVal.jstr s)) == "")) =
      !(py_strip s == "")
    by_cases hs : s = ""
    · subst hs; decide
    · simp [pyTruthy, pyStr, hs]
  rw [List.filter_congr hfil]
  congr 1

/-- C2 witness for the amended theorem, at the response
`{"sub_tasks": ["", "hi"]}`. -/
theorem breakdown_task_spec_witness :
    breakdown_task (some [("sub_tasks", JVal.jlist [JVal.jstr "", JVal.jstr "hi"])]) =
      some (((["", "hi"] : List String).filter (fun s => !(py_strip s == ""))).map
        (fun s => py_slice s 255)) :=
  breakdown_task_spec _ (["", "hi"]) (by rfl) (by rfl) (by decide)

/-! ## C9: `breakdown` on an all-blank `sub_tasks` list -/

/-- C9: on the response `{"sub_tasks": [" ", ""]}` — a non-empty list whose
entries are all empty or whitespace-only — `breakdown` returns the present
but empty list, not absent: the length-≥-1 check runs on the raw list before
blank entries are dropped. -/
theorem breakdown_task_all_blank_present_empty :
    breakdown_task (some [("sub_tasks", JVal.jlist [JVal.jstr " ", JVal.jstr ""])]) =
      some [] ∧
    breakdown_task (some [("sub_tasks", JVal.jlist [JVal.jstr " ", JVal.jstr ""])]) ≠
      none := by
  constructor
  · rfl
  · decide

/-! ## C3: `parse_free_text` normalization -/

/-- On a response containing `title`, `parse_task_input` succeeds and the
draft is the source's normalization of the response fields. -/
theorem parse_task_input_success (r : JObj) (v : JVal)
    (hkey : objHasKey r "title" = true) (hget : objGet r "title" = v) :
    ∃ d : TaskDraft, parse_task_input (some r) = some d ∧
      d.title = py_slice (pyStr v) 255 ∧
      ((d.priority ∈ VALID_PRIORITIES ∧ objGet r "priority" = JVal.jstr d.priority) ∨
        (d.priority = "medium" ∧
          ∀ p ∈ VALID_PRIORITIES, objGet r "priority" ≠ JVal.jstr p)) ∧
      d.due_date = objGet r "due_date" := by
  have hcond : (!(List.isEmpty r) && objHasKey r "title") = true := by
    rw [objHasKey_not_isEmpty hkey, hkey]
    rfl
  simp only [parse_task_input]
  rw [if_pos hcond]
  refine ⟨_, rfl, ?_, ?_, rfl⟩
  · show py_slice (pyStr (objGetD r "title" (JVal.jstr ""))) 255 =
      py_slice (pyStr v) 255
    rw [objGetD_eq_objGet _ hkey, hget]
  · cases hpv : objGet r "priority" with
    | jstr p =>
      by_cases hp : p ∈ VALID_PRIORITIES
      · left
        constructor
        · show (if p ∈ VALID_PRIORITIES then p else "medium") ∈ VALID_PRIORITIES
          rw [if_pos hp]
          exact hp
        · show JVal.jstr p =
            JVal.jstr (if p ∈ VALID_PRIORITIES then p else "medium")
          rw [if_pos hp]
      · right
        constructor
        · show (if p ∈ VALID_PRIORITIES then p else "medium") = "medium"
          rw [if_neg hp]
        · intro q hq hcontra
          injection hcontra with h
          exact hp (h ▸ hq)
    | jnull =>
      right
      exact ⟨rfl, fun q _ hcontra => JVal.noConfusion hcontra⟩
    | jlist ys =>
      right
      exact ⟨rfl, fun q _ hcontra => JVal.noConfusion hcontra⟩

/-- C3: `parse_task_input` is absent when the external call fails (which
covers API errors and malformed JSON: both exception branches of
`call_gemini` return `None`) and when the response omits `title`; on success
the draft's title is the stringified title value truncated to 255
characters, its priority is the response's priority when that is one of the
four valid strings and `"medium"` otherwise, and its due date is the
response value passed through unparsed. -/
theorem parse_task_input_spec :
    parse_task_input none = none ∧
    (∀ r : JObj, objHasKey r "title" = false → parse_task_input (some r) = none) ∧
    (∀ (r : JObj) (v : JVal), objHasKey r "title" = true → objGet r "title" = v →
      ∃ d : TaskDraft, parse_task_input (some r) = some d ∧
        d.title = py_slice (pyStr v) 255 ∧
        ((d.priority ∈ VALID_PRIORITIES ∧ objGet r "priority" = JVal.jstr d.priority) ∨
          (d.priority = "medium" ∧
            ∀ p ∈ VALID_PRIORITIES, objGet r "priority" ≠ JVal.jstr p)) ∧
        d.due_date = objGet r "due_date") := by
  refine ⟨rfl, ?_, ?_⟩
  · intro r h
    simp only [parse_task_input]
    rw [h]
    simp
  · intro r v hkey hget
    exact parse_task_input_success r v hkey hget

/-- C3 witness, at the round-trip response
`{"title": "Call mom", "description": null, "priority": "urgent",
"due_date": "2024-01-02"}`. -/
theorem parse_task_input_spec_witness :
    ∃ d : TaskDraft,
      parse_task_input (some [("title", JVal.jstr "Call mom"),
        ("description", JVal.jnull), ("priority", JVal.jstr "urgent"),
        ("due_date", JVal.jstr "2024-01-02")]) = some d ∧
      d.title = py_slice (pyStr (JVal.jstr "Call mom")) 255 ∧
      ((d.priority ∈ VALID_PRIORITIES ∧
          objGet [("title", JVal.jstr "Call mom"), ("description", JVal.jnull),
            ("priority", JVal.jstr "urgent"), ("due_date", JVal.jstr "2024-01-02")]
            "priority" = JVal.jstr d.priority) ∨
        (d.priority = "medium" ∧
          ∀ p ∈ VALID_PRIORITIES,
            objGet [("title", JVal.jstr "Call mom"), ("description", JVal.jnull),
              ("priority", JVal.jstr "urgent"), ("due_date", JVal.jstr "2024-01-02")]
              "priority" ≠ JVal.jstr p)) ∧
      d.due_date = objGet [("title", JVal.jstr "Call mom"),
        ("description", JVal.jnull), ("priority", JVal.jstr "urgent"),
        ("due_date", JVal.jstr "2024-01-02")] "due_date" :=
  parse_task_input_spec.2.2 _ (JVal.jstr "Call mom") (by rfl) (by rfl)

/-! ## C10: `parse_free_text` absent-cases and present-but-null title -/

/-- C10: `parse_task_input` returns absent exactly when the external call
fails or the `title` key is entirely absent from the response object; when
the `title` key is present with a null value it returns a draft whose title
is the stringified null. -/
theorem parse_task_input_none_iff :
    (parse_task_input none = none) ∧
    (∀ r : JObj, parse_task_input (some r) = none ↔ objHasKey r "title" = false) ∧
    (∀ r : JObj, objHasKey r "title" = true → objGet r "title" = JVal.jnull →
      ∃ d : TaskDraft, parse_task_input (some r) = some d ∧
        d.title = pyStr JVal.jnull) := by
  refine ⟨rfl, ?_, ?_⟩
  · intro r
    constructor
    · intro hnone
      by_contra hkey
      rw [Bool.not_eq_false] at hkey
      have hcond : (!(List.isEmpty r) && objHasKey r "title") = true := by
        rw [objHasKey_not_isEmpty hkey, hkey]
        rfl
      simp only [parse_task_input] at hnone
      rw [if_pos hcond] at hnone
      cases hnone
    · intro hkey
      simp only [parse_task_input]
      rw [hkey]
      simp
  · intro r hkey hnull
    obtain ⟨d, hd, hdt, _, _⟩ := parse_task_input_success r JVal.jnull hkey hnull
    exact ⟨d, hd, hdt⟩

/-- C10 witness, at the response `{"title": null}`. -/
theorem parse_task_input_none_iff_witness :
    ∃ d : TaskDraft,
      parse_task_input (some [("title", JVal.jnull)]) = some d ∧
      d.title = pyStr JVal.jnull :=
  parse_task_input_none_iff.2.2 _ (by rfl) (by rfl)

/-! ## C8: hierarchy root designation -/

/-- C8: reconstructing the hierarchy from an arbitrary list of tasks (whose
ids, being generated uuid strings, are non-empty), a task is designated a
root exactly when it belongs to the list and its parent reference is absent
or names no task of the list; in particular a task with a dangling parent
reference behaves as a root. -/
theorem hierarchy_root_iff (tasks : List Task) (t : Task)
    (hids : ∀ u ∈ tasks, u.task_id ≠ "") :
    t ∈ hierarchy_root_tasks tasks ↔
      (t ∈ tasks ∧ (t.parent_task_id = none ∨
        ∀ u ∈ tasks, some u.task_id ≠ t.parent_task_id)) := by
  unfold hierarchy_root_tasks
  rw [List.mem_filter]
  constructor
  · rintro ⟨hmem, hroot⟩
    refine ⟨hmem, ?_⟩
    unfold is_root_in_view pyFalsyOptStr at hroot
    cases hp : t.parent_task_id with
    | none => exact Or.inl rfl
    | some p =>
      rw [hp] at hroot
      have hroot2 : ((p == "") || !(tasks.any fun u => u.task_id == p)) = true :=
        hroot
      right
      intro u hu
      intro hcontra
      injection hcontra with h
      rw [Bool.or_eq_true] at hroot2
      cases hroot2 with
      | inl hfalsy =>
        rw [beq_iff_eq] at hfalsy
        exact hids u hu (h.trans hfalsy)
      | inr hnotin =>
        rw [Bool.not_eq_true'] at hnotin
        rw [List.any_eq_false] at hnotin
        exact absurd (beq_iff_eq.mpr h) (hnotin u hu)
  · rintro ⟨hmem, hroot⟩
    refine ⟨hmem, ?_⟩
    unfold is_root_in_view pyFalsyOptStr
    cases hp : t.parent_task_id with
    | none => rfl
    | some p =>
      cases hroot with
      | inl habs => rw [habs] at hp; cases hp
      | inr hnone =>
        show ((p == "") || !(tasks.any fun u => u.task_id == p)) = true
        rw [Bool.or_eq_true]
        right
        rw [Bool.not_eq_true', List.any_eq_false]
        intro u hu
        intro hbeq
        have h := beq_iff_eq.mp hbeq
        exact hnone u hu (by rw [hp, h])

/-- C8 witness: in the view `[wTaskA, wDangling]` the task `wDangling`,
whose parent reference `"zz"` names no task of the view, is designated a
root. -/
theorem hierarchy_root_iff_witness :
    wDangling ∈ hierarchy_root_tasks [wTaskA, wDangling] ↔
      (wDangling ∈ [wTaskA, wDangling] ∧ (wDangling.parent_task_id = none ∨
        ∀ u ∈ [wTaskA, wDangling], some u.task_id ≠ wDangling.parent_task_id)) :=
  hierarchy_root_iff [wTaskA, wDangling] wDangling (by decide)

/-! ## C5: empty update is a frame, `updated_at` strictly increases -/

/-- C5: for an existing task, an update with no supplied fields and no clear
flags leaves every field unchanged except `updated_at`, which strictly
increases — under the clock assumption that the current instant is strictly
later than the task's previous `updated_at` (the code stamps
`datetime.now`). -/
theorem update_task_empty_frame (store : List Task) (id : String) (t : Task)
    (now : Int) (hfind : get_task_by_id store id = some t)
    (hclock : t.updated_at < now) :
    ∃ t2 : Task, (update_task store id emptyUpdate now).1 = some t2 ∧
      t2.task_id = t.task_id ∧ t2.title = t.title ∧
      t2.description = t.description ∧ t2.status = t.status ∧
      t2.priority = t.priority ∧ t2.due_date = t.due_date ∧
      t2.parent_task_id = t.parent_task_id ∧ t2.created_at = t.created_at ∧
      t.updated_at < t2.updated_at := by
  refine ⟨apply_update t emptyUpdate now, ?_, ?_, ?_, ?_, ?_, ?_, ?_, ?_, ?_, ?_⟩
  · unfold update_task
    rw [hfind]
  all_goals
    show _
    simp only [apply_update, emptyUpdate]
    try rfl
  exact hclock

/-- C5 witness: updating `wTaskA` in a one-task store at instant 9. -/
theorem update_task_empty_frame_witness :
    ∃ t2 : Task, (update_task [wTaskA] "a" emptyUpdate 9).1 = some t2 ∧
      t2.task_id = wTaskA.task_id ∧ t2.title = wTaskA.title ∧
      t2.description = wTaskA.description ∧ t2.status = wTaskA.status ∧
      t2.priority = wTaskA.priority ∧ t2.due_date = wTaskA.due_date ∧
      t2.parent_task_id = wTaskA.parent_task_id ∧
      t2.created_at = wTaskA.created_at ∧
      wTaskA.updated_at < t2.updated_at :=
  update_task_empty_frame [wTaskA] "a" wTaskA 9 (by rfl) (by decide)

/-! ## C6: task statistics -/

/-- C6: `stats` returns the number of all tasks as `total`, one count per
status, and as `overdue` the number of tasks whose status is `todo` or
`inprogress` and whose due date exists and is strictly before the current
instant — so tasks with status `done` or `blocked` are never counted
overdue, whatever their due date. -/
theorem get_task_stats_spec (store : List Task) (now : Int) :
    (get_task_stats store now).total = store.length ∧
    (get_task_stats store now).todo = store.countP (fun t => t.status == "todo") ∧
    (get_task_stats store now).inprogress =
      store.countP (fun t => t.status == "inprogress") ∧
    (get_task_stats store now).done = store.countP (fun t => t.status == "done") ∧
    (get_task_stats store now).blocked =
      store.countP (fun t => t.status == "blocked") ∧
    (get_task_stats store now).overdue = store.countP (fun t =>
      decide ((t.status = "todo" ∨ t.status = "inprogress") ∧
        due_spec_lt t.due_date (some now))) := by
  refine ⟨rfl, ?_, ?_, ?_, ?_, ?_⟩
  · rw [List.countP_eq_length_filter]; rfl
  · rw [List.countP_eq_length_filter]; rfl
  · rw [List.countP_eq_length_filter]; rfl
  · rw [List.countP_eq_length_filter]; rfl
  · show (store.filter (fun t =>
        (match t.due_date with
          | some d => decide (d < now)
          | none => false)
        && (t.status == "todo" || t.status == "inprogress"))).length = _
    rw [List.countP_eq_length_filter]
    congr 1
    apply List.filter_congr
    intro t _
    cases hd : t.due_date with
    | none =>
      by_cases h1 : t.status = "todo" <;> by_cases h2 : t.status = "inprogress" <;>
        simp [h1, h2, due_spec_lt]
    | some d =>
      by_cases hlt : d < now <;>
        by_cases h1 : t.status = "todo" <;>
          by_cases h2 : t.status = "inprogress" <;>
            simp [h1, h2, hlt, due_spec_lt]

/-! ## C4: delete refusal and removal -/

/-- With pairwise-distinct ids (the table's unique constraint on `task_id`),
erasing the first record matching an id removes exactly the records with
that id. -/
theorem eraseP_eq_filter_of_nodup (store : List Task) (id : String)
    (hnd : (store.map Task.task_id).Nodup) :
    store.eraseP (fun t => t.task_id == id) =
      store.filter (fun t => !(t.task_id == id)) := by
  induction store with
  | nil => rfl
  | cons h tl ih =>
    rw [List.map_cons, List.nodup_cons] at hnd
    by_cases hh : h.task_id = id
    · rw [List.eraseP_cons_of_pos (p := fun t : Task => t.task_id == id) (by simp [hh]),
        List.filter_cons_of_neg (by simp [hh])]
      rw [List.filter_eq_self.mpr]
      intro u hu
      simp only [Bool.not_eq_true', beq_eq_false_iff_ne]
      intro hcontra
      exact hnd.1 (hh ▸ hcontra ▸ List.mem_map_of_mem Task.task_id hu)
    · rw [List.eraseP_cons_of_neg (p := fun t : Task => t.task_id == id) (by simp [hh]),
        List.filter_cons_of_pos (by simp [hh]), ih hnd.2]

/-- C4: `delete` returns false when no stored task has the id; returns false
and removes nothing when some stored task's parent reference equals the id;
and otherwise returns true and removes exactly the record with that id
(ids are pairwise distinct by the table's unique constraint). -/
theorem delete_task_spec (store : List Task) (id : String)
    (hnd : (store.map Task.task_id).Nodup) :
    (get_task_by_id store id = none → delete_task store id = (false, store)) ∧
    ((∃ c ∈ store, c.parent_task_id = some id) →
      delete_task store id = (false, store)) ∧
    ((∃ t ∈ store, t.task_id = id) →
      (∀ c ∈ store, c.parent_task_id ≠ some id) →
      delete_task store id =
        (true, store.filter (fun t => !(t.task_id == id)))) := by
  refine ⟨?_, ?_, ?_⟩
  · intro hnone
    unfold delete_task
    rw [hnone]
  · rintro ⟨c, hc, hcp⟩
    unfold delete_task
    cases hfind : get_task_by_id store id with
    | none => rfl
    | some t =>
      have hsub : has_subtasks store id = true := by
        unfold has_subtasks
        rw [decide_eq_true_eq, List.countP_pos_iff]
        exact ⟨c, hc, by simp [hcp]⟩
      rw [hsub]
      rfl
  · rintro ⟨t, ht, htid⟩ hnochild
    have hfound : (get_task_by_id store id).isSome := by
      unfold get_task_by_id
      rw [List.find?_isSome]
      exact ⟨t, ht, beq_iff_eq.mpr htid⟩
    obtain ⟨u, hu⟩ := Option.isSome_iff_exists.mp hfound
    unfold delete_task
    rw [hu]
    have hsub : has_subtasks store id = false := by
      unfold has_subtasks
      rw [decide_eq_false_iff_not, List.countP_pos_iff]
      rintro ⟨c, hc, hcp⟩
      exact hnochild c hc (beq_iff_eq.mp hcp)
    rw [hsub]
    rw [eraseP_eq_filter_of_nodup store id hnd]
    rfl

/-- C4 witness: in the store `[wParent, wChild]` (child references parent
`"p"`), deleting `"p"` is refused; after the general theorem's third clause,
deleting `"c"` succeeds and removes exactly the child. -/
theorem delete_task_spec_witness :
    (delete_task [wParent, wChild] "p" = (false, [wParent, wChild])) ∧
    (delete_task [wParent, wChild] "c" =
      (true, List.filter (fun t => !(t.task_id == "c")) [wParent, wChild])) :=
  ⟨(delete_task_spec [wParent, wChild] "p" (by decide)).2.1
      ⟨wChild, by decide, by decide⟩,
    (delete_task_spec [wParent, wChild] "c" (by decide)).2.2
      ⟨wChild, by decide, by decide⟩ (by decide)⟩

/-! ## C7: enum validity is established and preserved -/

/-- The status stored by `apply_update`: only a supplied valid status
changes it. -/
theorem apply_update_status (t : Task) (a : UpdateArgs) (now : Int) :
    (apply_update t a now).status =
      match a.status with
      | some v => if v ∈ VALID_STATUSES then v else t.status
      | none => t.status := by
  simp only [apply_update]
  repeat' split
  all_goals rfl

/-- The priority stored by `apply_update`: only a supplied valid priority
changes it. -/
theorem apply_update_priority (t : Task) (a : UpdateArgs) (now : Int) :
    (apply_update t a now).priority =
      match a.priority with
      | some v => if v ∈ VALID_PRIORITIES then v else t.priority
      | none => t.priority := by
  simp only [apply_update]
  repeat' split
  all_goals rfl

/-- C7: after every create and every update, `status` and `priority` are
among their enumerated values: create replaces an invalid status by `"todo"`
and an invalid priority by `"medium"`, and update ignores invalid supplied
values, leaving the previous (valid) value in place rather than raising. -/
theorem enum_validity_preserved :
    (∀ (now : Int) (new_id title : String) (description : Option String)
        (status priority : String) (due_date : Option Int)
        (parent_task_id : Option String),
      (mk_create_task now new_id title description status priority due_date
        parent_task_id).status ∈ VALID_STATUSES ∧
      (mk_create_task now new_id title description status priority due_date
        parent_task_id).priority ∈ VALID_PRIORITIES ∧
      (status ∉ VALID_STATUSES →
        (mk_create_task now new_id title description status priority due_date
          parent_task_id).status = "todo") ∧
      (priority ∉ VALID_PRIORITIES →
        (mk_create_task now new_id title description status priority due_date
          parent_task_id).priority = "medium")) ∧
    (∀ (t : Task) (a : UpdateArgs) (now : Int),
      t.status ∈ VALID_STATUSES → t.priority ∈ VALID_PRIORITIES →
      (apply_update t a now).status ∈ VALID_STATUSES ∧
      (apply_update t a now).priority ∈ VALID_PRIORITIES ∧
      (∀ s, a.status = some s → s ∉ VALID_STATUSES →
        (apply_update t a now).status = t.status) ∧
      (∀ p, a.priority = some p → p ∉ VALID_PRIORITIES →
        (apply_update t a now).priority = t.priority)) := by
  constructor
  · intro now new_id title description status priority due_date parent_task_id
    refine ⟨?_, ?_, ?_, ?_⟩
    · show (if status ∈ VALID_STATUSES then status else "todo") ∈ VALID_STATUSES
      by_cases h : status ∈ VALID_STATUSES
      · rw [if_pos h]; exact h
      · rw [if_neg h]; decide
    · show (if priority ∈ VALID_PRIORITIES then priority else "medium") ∈
        VALID_PRIORITIES
      by_cases h : priority ∈ VALID_PRIORITIES
      · rw [if_pos h]; exact h
      · rw [if_neg h]; decide
    · intro h
      show (if status ∈ VALID_STATUSES then status else "todo") = "todo"
      rw [if_neg h]
    · intro h
      show (if priority ∈ VALID_PRIORITIES then priority else "medium") = "medium"
      rw [if_neg h]
  · intro t a now hs hp
    refine ⟨?_, ?_, ?_, ?_⟩
    · rw [apply_update_status]
      cases a.status with
      | none => exact hs
      | some v =>
        show (if v ∈ VALID_STATUSES then v else t.status) ∈ VALID_STATUSES
        by_cases h : v ∈ VALID_STATUSES
        · rw [if_pos h]; exact h
        · rw [if_neg h]; exact hs
    · rw [apply_update_priority]
      cases a.priority with
      | none => exact hp
      | some v =>
        show (if v ∈ VALID_PRIORITIES then v else t.priority) ∈ VALID_PRIORITIES
        by_cases h : v ∈ VALID_PRIORITIES
        · rw [if_pos h]; exact h
        · rw [if_neg h]; exact hp
    · intro s hsome hinv
      rw [apply_update_status, hsome]
      show (if s ∈ VALID_STATUSES then s else t.status) = t.status
      rw [if_neg hinv]
    · intro p hsome hinv
      rw [apply_update_priority, hsome]
      show (if p ∈ VALID_PRIORITIES then p else t.priority) = t.priority
      rw [if_neg hinv]

/-- C7 witness: create with an invalid status and priority yields the
defaults, and an update supplying invalid values leaves `wTaskA`'s valid
enums in place. -/
theorem enum_validity_preserved_witness :
    ((mk_create_task 0 "x" "T" none "bogus" "nope" none none).status ∈
        VALID_STATUSES ∧
      (mk_create_task 0 "x" "T" none "bogus" "nope" none none).priority ∈
        VALID_PRIORITIES ∧
      ("bogus" ∉ VALID_STATUSES →
        (mk_create_task 0 "x" "T" none "bogus" "nope" none none).status =
          "todo") ∧
      ("nope" ∉ VALID_PRIORITIES →
        (mk_create_task 0 "x" "T" none "bogus" "nope" none none).priority =
          "medium")) ∧
    ((apply_update wTaskA wBadArgs 7).status ∈ VALID_STATUSES ∧
      (apply_update wTaskA wBadArgs 7).priority ∈ VALID_PRIORITIES ∧
      (∀ s, wBadArgs.status = some s → s ∉ VALID_STATUSES →
        (apply_update wTaskA wBadArgs 7).status = wTaskA.status) ∧
      (∀ p, wBadArgs.priority = some p → p ∉ VALID_PRIORITIES →
        (apply_update wTaskA wBadArgs 7).priority = wTaskA.priority)) :=
  ⟨enum_validity_preserved.1 0 "x" "T" none "bogus" "nope" none none,
    enum_validity_preserved.2 wTaskA wBadArgs 7 (by decide) (by decide)⟩

/-! ## C1: `next_task` selection -/

/-- The SQL `case` priority rank of `get_next_priority_task` agrees with the
spec's mapping read off `PRIORITY_ORDER` (both send unknown strings to 0). -/
theorem priority_case_eq_rank (p : String) :
    priority_case p = spec_priority_rank p := by
  unfold priority_case spec_priority_rank PRIORITY_ORDER
  split_ifs with h1 h2 h3 h4
  · subst h1; rfl
  · subst h2; rfl
  · subst h3; rfl
  · subst h4; rfl
  · have e1 : (p == "urgent") = false := beq_eq_false_iff_ne.mpr h1
    have e2 : (p == "high") = false := beq_eq_false_iff_ne.mpr h2
    have e3 : (p == "medium") = false := beq_eq_false_iff_ne.mpr h3
    have e4 : (p == "low") = false := beq_eq_false_iff_ne.mpr h4
    simp [List.lookup, e1, e2, e3, e4]

/-- The boolean due-date comparison of the query agrees with the spec's
due-date order. -/
theorem due_asc_iff (a b : Option Int) :
    due_asc_nullslast a b = true ↔ due_spec_lt a b := by
  cases a <;> cases b <;> simp [due_asc_nullslast, due_spec_lt]

/-- `due_spec_lt` is irreflexive. -/
theorem due_spec_lt_irrefl (a : Option Int) : ¬ due_spec_lt a a := by
  cases a <;> simp [due_spec_lt]

/-- `due_spec_lt` is transitive. -/
theorem due_spec_lt_trans : ∀ {a b c : Option Int},
    due_spec_lt a b → due_spec_lt b c → due_spec_lt a c := by
  intro a b c
  cases a <;> cases b <;> cases c <;> simp [due_spec_lt] <;> omega

/-- `due_spec_lt` is negatively transitive. -/
theorem due_spec_lt_negtrans : ∀ {a b c : Option Int},
    ¬ due_spec_lt a b → ¬ due_spec_lt b c → ¬ due_spec_lt a c := by
  intro a b c
  cases a <;> cases b <;> cases c <;> simp [due_spec_lt] <;> omega

/-- Two due dates neither of which sorts before the other are equal. -/
theorem due_spec_connex : ∀ {a b : Option Int},
    ¬ due_spec_lt a b → ¬ due_spec_lt b a → a = b := by
  intro a b
  cases a <;> cases b <;> simp [due_spec_lt] <;> omega

/-- The query's boolean "sorts before" relation coincides with the spec's
lexicographic order. -/
theorem task_order_before_iff (a b : Task) :
    task_order_before a b = true ↔ spec_key_lt a b := by
  unfold task_order_before spec_key_lt
  rw [priority_case_eq_rank, priority_case_eq_rank]
  by_cases hp : spec_priority_rank a.priority = spec_priority_rank b.priority
  · rw [if_neg (fun h => h hp)]
    by_cases hd : a.due_date = b.due_date
    · rw [if_neg (fun h => h hd)]
      rw [decide_eq_true_eq]
      constructor
      · intro hc
        exact Or.inr ⟨hp, Or.inr ⟨hd, hc⟩⟩
      · rintro (hlt | ⟨_, hdl | ⟨_, hcl⟩⟩)
        · omega
        · rw [hd] at hdl
          exact absurd hdl (due_spec_lt_irrefl _)
        · exact hcl
    · rw [if_pos hd, due_asc_iff]
      constructor
      · intro hdl
        exact Or.inr ⟨hp, Or.inl hdl⟩
      · rintro (hlt | ⟨_, hdl | ⟨hde, _⟩⟩)
        · omega
        · exact hdl
        · exact absurd hde hd
  · rw [if_pos hp, decide_eq_true_eq]
    constructor
    · exact Or.inl
    · rintro (h | ⟨he, _⟩)
      · exact h
      · exact absurd he hp

/-- `spec_key_lt` is irreflexive. -/
theorem spec_key_lt_irrefl (a : Task) : ¬ spec_key_lt a a := by
  unfold spec_key_lt
  rintro (h | ⟨_, hd | ⟨_, hc⟩⟩)
  · omega
  · exact due_spec_lt_irrefl _ hd
  · omega

/-- `spec_key_lt` is transitive. -/
theorem spec_key_lt_trans {a b c : Task} :
    spec_key_lt a b → spec_key_lt b c → spec_key_lt a c := by
  unfold spec_key_lt
  rintro (h1 | ⟨e1, d1⟩) (h2 | ⟨e2, d2⟩)
  · left; omega
  · left; omega
  · left; omega
  · right
    refine ⟨by omega, ?_⟩
    rcases d1 with hd1 | ⟨hde1, hc1⟩ <;> rcases d2 with hd2 | ⟨hde2, hc2⟩
    · exact Or.inl (due_spec_lt_trans hd1 hd2)
    · exact Or.inl (by rw [← hde2]; exact hd1)
    · exact Or.inl (by rw [hde1]; exact hd2)
    · exact Or.inr ⟨hde1.trans hde2, by omega⟩

/-- `spec_key_lt` is negatively transitive. -/
theorem spec_key_lt_negtrans {a b c : Task} :
    ¬ spec_key_lt a b → ¬ spec_key_lt b c → ¬ spec_key_lt a c := by
  intro hab hbc hac
  have h1 : ¬ (spec_priority_rank b.priority < spec_priority_rank a.priority) :=
    fun hx => hab (Or.inl hx)
  have h2 : ¬ (spec_priority_rank c.priority < spec_priority_rank b.priority) :=
    fun hx => hbc (Or.inl hx)
  rcases hac with h | ⟨he, hrest⟩
  · omega
  · have heq1 : spec_priority_rank a.priority = spec_priority_rank b.priority := by
      omega
    have heq2 : spec_priority_rank b.priority = spec_priority_rank c.priority := by
      omega
    have hnd1 : ¬ due_spec_lt a.due_date b.due_date :=
      fun hx => hab (Or.inr ⟨heq1, Or.inl hx⟩)
    have hnd2 : ¬ due_spec_lt b.due_date c.due_date :=
      fun hx => hbc (Or.inr ⟨heq2, Or.inl hx⟩)
    rcases hrest with hd | ⟨hde, hc⟩
    · exact due_spec_lt_negtrans hnd1 hnd2 hd
    · have hnd2a : ¬ due_spec_lt b.due_date a.due_date := by
        rw [hde]; exact hnd2
      have hdeq : a.due_date = b.due_date := due_spec_connex hnd1 hnd2a
      have hnc1 : ¬ (a.created_at < b.created_at) :=
        fun hx => hab (Or.inr ⟨heq1, Or.inr ⟨hdeq, hx⟩⟩)
      have hnc2 : ¬ (b.created_at < c.created_at) :=
        fun hx => hbc (Or.inr ⟨heq2, Or.inr ⟨by rw [← hdeq, hde], hx⟩⟩)
      omega

/-- The folded selection is the seed or one of the folded rows. -/
theorem foldl_select_mem : ∀ (ts : List Task) (b : Task),
    ts.foldl select_step b = b ∨ ts.foldl select_step b ∈ ts := by
  intro ts
  induction ts with
  | nil => exact fun b => Or.inl rfl
  | cons t ts ih =>
    intro b
    rw [List.foldl_cons]
    rcases ih (select_step b t) with h | h
    · by_cases hc : task_order_before t b = true
      · have hstep : select_step b t = t := if_pos hc
        rw [hstep] at h ⊢
        right
        rw [h]
        exact List.mem_cons_self t ts
      · have hstep : select_step b t = b := if_neg hc
        rw [hstep] at h ⊢
        exact Or.inl h
    · right
      exact List.mem_cons_of_mem t h

/-- No row offered to the fold sorts strictly before the folded selection. -/
theorem foldl_select_min : ∀ (ts : List Task) (b u : Task),
    (u = b ∨ u ∈ ts) → ¬ spec_key_lt u (ts.foldl select_step b) := by
  intro ts
  induction ts with
  | nil =>
    intro b u hu
    rcases hu with rfl | h
    · exact spec_key_lt_irrefl u
    · cases h
  | cons t ts ih =>
    intro b u hu
    rw [List.foldl_cons]
    by_cases hc : task_order_before t b = true
    · have hstep : select_step b t = t := if_pos hc
      rw [hstep]
      rcases hu with rfl | h
      · intro hlt
        have htb : spec_key_lt t u := (task_order_before_iff t u).mp hc
        exact ih t t (Or.inl rfl) (spec_key_lt_trans htb hlt)
      · rcases List.mem_cons.mp h with he | h2
        · subst he
          exact ih u u (Or.inl rfl)
        · exact ih t u (Or.inr h2)
    · have hstep : select_step b t = b := if_neg hc
      rw [hstep]
      rcases hu with rfl | h
      · exact ih u u (Or.inl rfl)
      · rcases List.mem_cons.mp h with he | h2
        · subst he
          intro hlt
          have hnb : ¬ spec_key_lt u b :=
            fun hx => hc ((task_order_before_iff u b).mpr hx)
          exact spec_key_lt_negtrans hnb (ih b b (Or.inl rfl)) hlt
        · exact ih b u (Or.inr h2)

/-- `select_first` is absent exactly on the empty candidate list. -/
theorem select_first_eq_none_iff (ts : List Task) :
    select_first ts = none ↔ ts = [] := by
  cases ts <;> simp [select_first]

/-- A selected row belongs to the candidates and is minimal among them. -/
theorem select_first_spec (ts : List Task) (t : Task)
    (h : select_first ts = some t) :
    t ∈ ts ∧ ∀ u ∈ ts, ¬ spec_key_lt u t := by
  cases ts with
  | nil => cases h
  | cons h0 tl =>
    unfold select_first at h
    injection h with h
    subst h
    constructor
    · rcases foldl_select_mem tl h0 with he | hm
      · rw [he]
        exact List.mem_cons_self h0 tl
      · exact List.mem_cons_of_mem _ hm
    · intro u hu
      rcases List.mem_cons.mp hu with he | h2
      · subst he
        exact foldl_select_min tl u u (Or.inl rfl)
      · exact foldl_select_min tl h0 u (Or.inr h2)

/-- Boolean and propositional candidate predicates agree. -/
theorem is_incomplete_iff (t : Task) :
    is_incomplete t = true ↔ is_candidate t := by
  unfold is_incomplete is_candidate
  rw [Bool.or_eq_true, beq_iff_eq, beq_iff_eq]

/-- C1: over stored tasks (whose priorities are all valid, by the C7
invariant), `next_task` is absent exactly when no task has status `todo` or
`inprogress`; otherwise it returns a candidate that is first — minimal, no
candidate sorts strictly before it — under the lexicographic order: priority
descending (urgent=4 > high=3 > medium=2 > low=1), then due date ascending
with absent due dates after all present ones, then `created_at` ascending. -/
theorem get_next_priority_task_spec (store : List Task)
    (hval : ∀ t ∈ store, t.priority ∈ VALID_PRIORITIES) :
    (get_next_priority_task store = none ↔ ∀ t ∈ store, ¬ is_candidate t) ∧
    (∀ t, get_next_priority_task store = some t →
      t ∈ store ∧ is_candidate t ∧
      ∀ u ∈ store, is_candidate u → ¬ spec_key_lt u t) := by
  constructor
  · unfold get_next_priority_task
    rw [select_first_eq_none_iff, List.filter_eq_nil_iff]
    constructor
    · intro h t ht hc
      exact h t ht ((is_incomplete_iff t).mpr hc)
    · intro h t ht hc
      exact h t ht ((is_incomplete_iff t).mp hc)
  · intro t hsome
    unfold get_next_priority_task at hsome
    obtain ⟨hmem, hmin⟩ := select_first_spec _ _ hsome
    rw [List.mem_filter] at hmem
    refine ⟨hmem.1, (is_incomplete_iff t).mp hmem.2, ?_⟩
    intro u hu hcand
    exact hmin u (List.mem_filter.mpr ⟨hu, (is_incomplete_iff u).mpr hcand⟩)

/-- C1 witness, at the store `[wTaskB, wTaskA]`: both are candidates of equal
priority, `wTaskA` has a due date and `wTaskB` has none. -/
theorem get_next_priority_task_spec_witness :
    (get_next_priority_task [wTaskB, wTaskA] = none ↔
      ∀ t ∈ [wTaskB, wTaskA], ¬ is_candidate t) ∧
    (∀ t, get_next_priority_task [wTaskB, wTaskA] = some t →
      t ∈ [wTaskB, wTaskA] ∧ is_candidate t ∧
      ∀ u ∈ [wTaskB, wTaskA], is_candidate u → ¬ spec_key_lt u t) :=
  get_next_priority_task_spec [wTaskB, wTaskA] (by decide)

end CogniTask
